import Mathlib

/-!
Verification of the event correlation and metrics-derivation engine of the
loadtest framework, embedded from `loadtest_framework/analysis/analyzer.py`.

Modelling conventions:
* An ISO-8601 timestamp is modelled by a rational number of seconds; the
  subtraction of two `datetime` values followed by `.total_seconds()` is
  rational subtraction.
* A raw JSON event record is modelled by `RawEvent`.  Fields read with
  `event.get(k)` are `Option`-valued (`none` = key absent, Python `None`).
  The two fields that the analyzer feeds to a fallible parser
  (`datetime.fromisoformat(event.get("timestamp"))` and
  `Decimal(event["amount"])`) are modelled by `Parsed`, carrying the outcome
  of that parse: `missing` (key absent: `fromisoformat(None)` raises
  `TypeError`, `event["amount"]` raises `KeyError`), `malformed` (the string
  does not parse: `ValueError` / `InvalidOperation`), or the parsed value.
* Python dicts are association lists preserving insertion order; assignment
  replaces the value in place, lookup returns the stored value or `none`.
* Python `Decimal` values with `getcontext().prec = 50` are modelled by
  `Dec` (integer coefficient times a power of ten) with correctly-rounded
  (round-half-even to 50 significant digits) addition, as the `decimal`
  module performs.
-/

namespace LoadtestAnalyzer

/-- Outcome of parsing a fallible field of a raw record. -/
inductive Parsed (α : Type) where
  | missing : Parsed α
  | malformed : Parsed α
  | ok : α → Parsed α
deriving DecidableEq

/-- Python dict: ordered association list. -/
abbrev Dict (κ β : Type) := List (κ × β)

/-- `d.get(k)`: first binding of `k`, if any. -/
def getv {κ β : Type} [DecidableEq κ] : Dict κ β → κ → Option β
  | [], _ => none
  | (k0, v0) :: m, k => if k = k0 then some v0 else getv m k

/-- `d[k] = v`: replace the binding in place, or append a new one. -/
def setv {κ β : Type} [DecidableEq κ] : Dict κ β → κ → β → Dict κ β
  | [], k, v => [(k, v)]
  | (k0, v0) :: m, k, v => if k = k0 then (k0, v) :: m else (k0, v0) :: setv m k v

/-- Keys of a dict, in order. -/
def keys {κ β : Type} (m : Dict κ β) : List κ := m.map Prod.fst

/-- Values of a dict, in order (`d.values()`). -/
def vals {κ β : Type} (m : Dict κ β) : List β := m.map Prod.snd

/-! ### Decimal arithmetic (`decimal` module at `getcontext().prec = 50`) -/

/-- A `decimal.Decimal`: value `c * 10 ^ e`. -/
structure Dec where
  c : ℤ
  e : ℤ
deriving DecidableEq

/-- Exact rational value of a decimal. -/
def Dec.val (d : Dec) : ℚ := (d.c : ℚ) * (10 : ℚ) ^ d.e

/-- The context precision set by the analyzer (`getcontext().prec = 50`). -/
def prec : ℕ := 50

/-- Number of base-10 digits of `n` (0 for 0), by fuel recursion so that it
reduces definitionally. -/
def ndigitsAux : ℕ → ℕ → ℕ
  | 0, _ => 0
  | fuel + 1, n => if n = 0 then 0 else ndigitsAux fuel (n / 10) + 1

/-- Number of base-10 digits of `n`. -/
def ndigits (n : ℕ) : ℕ := ndigitsAux n n

/-- Round `m / 10^d` to the nearest integer, ties to even
(`ROUND_HALF_EVEN`, the default decimal context rounding). -/
def rhe (m p : ℕ) : ℕ :=
  let q := m / p
  let r := m % p
  if 2 * r < p then q else if p < 2 * r then q + 1 else if q % 2 = 0 then q else q + 1

/-- Bring a coefficient/exponent pair into the context: round the
coefficient half-even to at most `prec` significant digits, as the decimal
context does to every arithmetic result. -/
def decRound (c : ℤ) (e : ℤ) : Dec :=
  let n := c.natAbs
  if ndigits n ≤ prec then ⟨c, e⟩
  else
    let d := ndigits n - prec
    let q := rhe n (10 ^ d)
    let q' : ℤ := if c < 0 then -(q : ℤ) else (q : ℤ)
    if ndigits q ≤ prec then ⟨q', e + d⟩
    else ⟨(if c < 0 then -((q / 10 : ℕ) : ℤ) else ((q / 10 : ℕ) : ℤ)), e + d + 1⟩

/-- Context addition of two decimals: align exponents, add exactly, round to
the context precision (the `decimal` module's addition is correctly
rounded). -/
def decAdd (a b : Dec) : Dec :=
  let e := min a.e b.e
  decRound (a.c * 10 ^ (a.e - e).toNat + b.c * 10 ^ (b.e - e).toNat) e

/-- `x / Decimal("1e18")` at context precision: the exact quotient is
`x.c * 10 ^ (x.e - 18)`, which the context rounds to `prec` digits (it is
returned unchanged whenever the coefficient already fits). -/
def decDiv1e18 (a : Dec) : Dec := decRound a.c (a.e - 18)

/-- `sum(debit_notes)`: left fold of context addition starting from 0. -/
def decSum (l : List Dec) : Dec := l.foldl decAdd ⟨0, 0⟩

/-! ### Event records and analyzer state -/

/-- Dict keys produced by `event.get(...)`: `none` is Python `None`. -/
abbrev Key := Option String

/-- One raw event record (one JSON object of the input list). -/
structure RawEvent where
  event : Option String := none
  timestamp : Parsed ℚ := .missing
  provider_id : Key := none
  provider_name : Option String := none
  agr_id : Key := none
  task_id : Key := none
  result : Option String := none
  amount : Parsed Dec := .missing
  /-- `str(event.get("reason", "Unknown"))`: `none` = key absent; `some s`
  = key present with `str(value) = s`. -/
  reason : Option String := none
deriving DecidableEq

/-- The Python exceptions the event loop can raise. -/
inductive PyErr where
  | typeError       -- `fromisoformat(None)`
  | valueError      -- malformed timestamp string
  | keyError        -- `event["amount"]` with no such key
  | invalidOperation -- `Decimal(...)` on an unparseable string
deriving DecidableEq

/-- One agreement record (`agreements[agr_id]`). -/
structure AgreementRec where
  provider_id : Key
  created_at : ℚ
  proposal_at : Option ℚ
  provider_name : Option String
  worker_started_at : Option ℚ := none
deriving DecidableEq

/-- One task record (`tasks[task_id]`).  `result` is `none` while the key is
absent and `some r` once assigned, where `r` is the Python value
(`event.get("result")`, possibly `None`). -/
structure TaskRec where
  started_at : ℚ
  agr_id : Key
  finished_at : Option ℚ := none
  duration : Option ℚ := none
  result : Option (Option String) := none
deriving DecidableEq

/-- Per-provider counters (`provider_stats[provider_id]`). -/
structure ProvStats where
  name : Option String
  tasks_run : ℕ
  tasks_successful : ℕ
  tasks_failed : ℕ
deriving DecidableEq

/-- The correlation-store state built by the event loop. -/
structure St where
  script_start_time : Option ℚ := none
  script_end_time : Option ℚ := none
  proposals : Dict Key ℚ := []
  agreements : Dict Key AgreementRec := []
  tasks : Dict Key TaskRec := []
  debit_notes : List Dec := []
  terminations : Dict String ℕ := []
  provider_stats : Dict Key ProvStats := []
deriving DecidableEq

/-- The empty initial state. -/
def St0 : St := {}

/-- `ProposalReceived`: record the timestamp only for a provider not yet
seen (`if provider_id not in proposals`). -/
def onProposal (s : St) (pid : Key) (ts : ℚ) : St :=
  if (getv s.proposals pid).isSome then s
  else { s with proposals := setv s.proposals pid ts }

/-- `AgreementCreated`: store the agreement record (snapshotting
`proposals.get(provider_id)`), and initialize the provider's counters if
absent. -/
def onAgreementCreated (s : St) (e : RawEvent) (ts : ℚ) : St :=
  let newAgr : AgreementRec :=
    { provider_id := e.provider_id
      created_at := ts
      proposal_at := getv s.proposals e.provider_id
      provider_name := e.provider_name }
  let s1 := { s with agreements := setv s.agreements e.agr_id newAgr }
  if (getv s1.provider_stats e.provider_id).isSome then s1
  else
    let newStats : ProvStats :=
      { name := e.provider_name, tasks_run := 0, tasks_successful := 0, tasks_failed := 0 }
    { s1 with provider_stats := setv s1.provider_stats e.provider_id newStats }

/-- `WorkerStarted`: set `worker_started_at` if the agreement exists. -/
def onWorkerStarted (s : St) (aid : Key) (ts : ℚ) : St :=
  match getv s.agreements aid with
  | some a => { s with agreements := setv s.agreements aid { a with worker_started_at := some ts } }
  | none => s

/-- The provider-resolution pattern the three task branches repeat:
`if agr_id in agreements:` then `if provider_id in provider_stats:` then
update that provider's counters with `f`. -/
def bumpProv (s : St) (aid : Key) (f : ProvStats → ProvStats) : St :=
  match getv s.agreements aid with
  | some a =>
      match getv s.provider_stats a.provider_id with
      | some p => { s with provider_stats := setv s.provider_stats a.provider_id (f p) }
      | none => s
  | none => s

/-- `TaskStarted`: (re)create the task record, then bump `tasks_run`. -/
def onTaskStarted (s : St) (tid aid : Key) (ts : ℚ) : St :=
  let s1 := { s with tasks := setv s.tasks tid { started_at := ts, agr_id := aid } }
  bumpProv s1 aid fun p => { p with tasks_run := p.tasks_run + 1 }

/-- `TaskAccepted`: if the task exists, set `finished_at`, `duration` and
`result`, then bump `tasks_successful` through the task's agreement. -/
def onTaskAccepted (s : St) (tid : Key) (result : Option String) (ts : ℚ) : St :=
  match getv s.tasks tid with
  | some t =>
      let t1 : TaskRec :=
        { t with finished_at := some ts
                 duration := some (ts - t.started_at)
                 result := some result }
      let s1 := { s with tasks := setv s.tasks tid t1 }
      bumpProv s1 t.agr_id fun p => { p with tasks_successful := p.tasks_successful + 1 }
  | none => s

/-- `TaskRejected` / `TaskFailed` (one shared branch in the source): if the
task exists, set `finished_at` and `result = "Failed"` (the `duration` key
is not touched), then bump `tasks_failed`. -/
def onTaskTerminal (s : St) (tid : Key) (ts : ℚ) : St :=
  match getv s.tasks tid with
  | some t =>
      let t1 : TaskRec := { t with finished_at := some ts, result := some (some "Failed") }
      let s1 := { s with tasks := setv s.tasks tid t1 }
      bumpProv s1 t.agr_id fun p => { p with tasks_failed := p.tasks_failed + 1 }
  | none => s

/-- `AgreementTerminated`: bump the histogram at
`str(event.get("reason", "Unknown"))`. -/
def onAgreementTerminated (s : St) (reason : Option String) : St :=
  let r := reason.getD "Unknown"
  { s with terminations := setv s.terminations r ((getv s.terminations r).getD 0 + 1) }

/-- Dispatch one event whose timestamp parsed to `ts`: the body of the
`for event in events` loop of `analyze_results`, one branch per
`event_name`. -/
def dispatch (s : St) (e : RawEvent) (ts : ℚ) : Except PyErr St :=
  if e.event = some "script_start" then .ok { s with script_start_time := some ts }
  else if e.event = some "script_end" then .ok { s with script_end_time := some ts }
  else if e.event = some "ProposalReceived" then .ok (onProposal s e.provider_id ts)
  else if e.event = some "AgreementCreated" then .ok (onAgreementCreated s e ts)
  else if e.event = some "WorkerStarted" then .ok (onWorkerStarted s e.agr_id ts)
  else if e.event = some "TaskStarted" then .ok (onTaskStarted s e.task_id e.agr_id ts)
  else if e.event = some "TaskAccepted" then .ok (onTaskAccepted s e.task_id e.result ts)
  else if e.event = some "TaskRejected" ∨ e.event = some "TaskFailed" then
    .ok (onTaskTerminal s e.task_id ts)
  else if e.event = some "DebitNoteReceived" then
    match e.amount with
    | .missing => .error .keyError
    | .malformed => .error .invalidOperation
    | .ok d => .ok { s with debit_notes := s.debit_notes ++ [d] }
  else if e.event = some "AgreementTerminated" then .ok (onAgreementTerminated s e.reason)
  else .ok s

/-- One loop iteration: `timestamp = datetime.fromisoformat(event.get("timestamp"))`
runs before the dispatch on `event_name`, for every record; its exceptions
propagate out of `analyze_results`. -/
def step (s : St) (e : RawEvent) : Except PyErr St :=
  match e.timestamp with
  | .missing => .error .typeError
  | .malformed => .error .valueError
  | .ok ts => dispatch s e ts

/-- The whole `for event in events` loop from a given state. -/
def processFrom (s : St) : List RawEvent → Except PyErr St
  | [] => .ok s
  | e :: es =>
      match step s e with
      | .ok s' => processFrom s' es
      | .error err => .error err

/-- The whole event loop from the empty state. -/
def processEvents (es : List RawEvent) : Except PyErr St := processFrom St0 es

/-! ### Metrics derivation (`get_stats_dict` and the calculation section) -/

/-- Insert into a sorted list (ascending). -/
def insertSorted (x : ℚ) : List ℚ → List ℚ
  | [] => [x]
  | y :: ys => if x ≤ y then x :: y :: ys else y :: insertSorted x ys

/-- Ascending sort, as `pandas` sorts the data before taking quantiles. -/
def sortQ (xs : List ℚ) : List ℚ := xs.foldr insertSorted []

/-- Sum of a list of rationals. -/
def sumQ (xs : List ℚ) : ℚ := xs.foldl (· + ·) 0

/-- Linear-interpolation quantile of nonempty data, as computed by
`pandas.Series.describe` (`numpy.percentile`, `interpolation=linear`). -/
def quantile (xs : List ℚ) (q : ℚ) : ℚ :=
  let ys := sortQ xs
  let n := ys.length
  let pos : ℚ := q * ((n : ℚ) - 1)
  let i : ℕ := ⌊pos⌋.toNat
  let lo := ys.getD i 0
  let hi := ys.getD (i + 1) lo
  lo + (pos - (i : ℚ)) * (hi - lo)

/-- One statistics block of the report.  `pandas` reports `std` as a float
square root; since the other fields are exact rationals we carry the square
of the standard deviation (`std_sq`), which determines `std` uniquely
(`x ↦ √x` is injective on nonnegative values).  `none` models both an
absent value (empty series) and `NaN` (the `std` of a one-element series,
`ddof = 1`). -/
structure StatsRec where
  count : ℕ
  mean : Option ℚ
  std_sq : Option ℚ
  min : Option ℚ
  q25 : Option ℚ
  q50 : Option ℚ
  q75 : Option ℚ
  max : Option ℚ
deriving DecidableEq

/-- `get_stats_dict`: the zero record for empty data, otherwise the fields
of `pandas.Series(data).describe()`: count, mean, standard deviation with
`ddof = 1` (`NaN`, i.e. `none`, for a single element), min, linear
quantiles, max. -/
def get_stats_dict (data : List ℚ) : StatsRec :=
  match data with
  | [] => { count := 0, mean := none, std_sq := none, min := none
            q25 := none, q50 := none, q75 := none, max := none }
  | _ :: _ =>
      let n := data.length
      let m := sumQ data / (n : ℚ)
      { count := n
        mean := some m
        std_sq := if 2 ≤ n then some (sumQ (data.map (fun x => (x - m) ^ 2)) / ((n : ℚ) - 1)) else none
        min := some ((sortQ data).getD 0 0)
        q25 := some (quantile data (1 / 4))
        q50 := some (quantile data (1 / 2))
        q75 := some (quantile data (3 / 4))
        max := some ((sortQ data).getLastD 0) }

/-- The structured report document (`summary_data`), restricted to the
numeric content; the two cost totals are carried as exact decimals, which
`str(...)` serializes exactly. -/
structure Summary where
  total_duration : Option ℚ
  successful_tasks : ℕ
  failed_tasks : ℕ
  total_cost_gwei : Dec
  total_cost_glm : Dec
  terminations : Dict String ℕ
  provider_stats : Dict Key ProvStats
  provider_found_to_agreement : StatsRec
  script_start_to_agreement : StatsRec
  provider_setup : StatsRec
  script_start_to_task_start : StatsRec
  task_execution_duration : StatsRec
  provider_found_to_task_start : StatsRec
deriving DecidableEq

/-- Is this task counted as failed?  `data.get("result") != "Failed"` is the
success test, so only a present `result` equal to the string `"Failed"`
counts as failed. -/
def TaskRec.isFailed (t : TaskRec) : Bool := t.result = some (some "Failed")

/-- The calculation section of `analyze_results`, evaluated on the final
state once `script_start_time` is known. -/
def summarize (s : St) (start : ℚ) : Summary :=
  let provider_to_agreement_times :=
    (vals s.agreements).filterMap fun a => a.proposal_at.map fun p => a.created_at - p
  let script_to_agreement_times :=
    (vals s.agreements).map fun a => a.created_at - start
  let script_to_task_start_times :=
    (vals s.tasks).map fun t => t.started_at - start
  let task_durations := (vals s.tasks).filterMap fun t => t.duration
  -- `if (agr_id := task_data.get("agr_id")) and ...`: a missing or empty
  -- (falsy) agr_id string skips the task.
  let provider_to_task_start_times :=
    (vals s.tasks).filterMap fun t =>
      match t.agr_id with
      | none => none
      | some aid =>
          if aid = "" then none
          else (getv s.agreements (some aid)).bind fun a =>
            a.proposal_at.map fun p => t.started_at - p
  let provider_setup_times :=
    (vals s.agreements).filterMap fun a => a.worker_started_at.map fun w => w - a.created_at
  let successful := (vals s.tasks).countP fun t => ! t.isFailed
  let gwei := decSum s.debit_notes
  { total_duration := s.script_end_time.map fun e => e - start
    successful_tasks := successful
    failed_tasks := s.tasks.length - successful
    total_cost_gwei := gwei
    total_cost_glm := decDiv1e18 gwei
    terminations := s.terminations
    provider_stats := s.provider_stats
    provider_found_to_agreement := get_stats_dict provider_to_agreement_times
    script_start_to_agreement := get_stats_dict script_to_agreement_times
    provider_setup := get_stats_dict provider_setup_times
    script_start_to_task_start := get_stats_dict script_to_task_start_times
    task_execution_duration := get_stats_dict task_durations
    provider_found_to_task_start := get_stats_dict provider_to_task_start_times }

/-- `analyze_results`: run the event loop (its exceptions propagate), then
either return no statistics (`if not script_start_time: ... return`, the
MissingRunStart report) or the summary document. -/
def analyze_results (es : List RawEvent) : Except PyErr (Option Summary) :=
  match processEvents es with
  | .error err => .error err
  | .ok s =>
      match s.script_start_time with
      | none => .ok none
      | some start => .ok (some (summarize s start))

/-! ### Spec-side comparison definitions and concrete exhibit streams -/

/-- Distinct task ids that received a terminal event
(`TaskAccepted`/`TaskRejected`/`TaskFailed`), as the claim words it. -/
def specTerminalIds (es : List RawEvent) : List Key :=
  ((es.filter fun e => decide (e.event = some "TaskAccepted" ∨
      e.event = some "TaskRejected" ∨ e.event = some "TaskFailed")).map
    fun e => e.task_id).dedup

/-- All parsed `ProposalReceived` timestamps of one provider, as the
claim's "minimum timestamp over all proposal_received events" ranges over
them. -/
def proposalTimes (es : List RawEvent) (pid : Key) : List ℚ :=
  es.filterMap fun e =>
    if e.event = some "ProposalReceived" ∧ e.provider_id = pid then
      match e.timestamp with
      | .ok t => some t
      | _ => none
    else none

/-- Population variance of a series, as the claim's "population standard
deviation" prescribes (the reported std is its square root; squaring is
injective on nonnegative values, so distinct variances mean distinct
standard deviations). -/
def specPopVariance (data : List ℚ) : ℚ :=
  sumQ (data.map fun x => (x - sumQ data / (data.length : ℚ)) ^ 2) / (data.length : ℚ)

def evStart : RawEvent := { event := some "script_start", timestamp := .ok 0 }

def evProposalP5 : RawEvent :=
  { event := some "ProposalReceived", timestamp := .ok 5, provider_id := some "P" }

def evProposalP1 : RawEvent :=
  { event := some "ProposalReceived", timestamp := .ok 1, provider_id := some "P" }

def evAgrCreated : RawEvent :=
  { event := some "AgreementCreated", timestamp := .ok 1, agr_id := some "A",
    provider_id := some "P", provider_name := some "N" }

def evTaskStarted : RawEvent :=
  { event := some "TaskStarted", timestamp := .ok 2, task_id := some "T",
    agr_id := some "A" }

def evTaskRejected : RawEvent :=
  { event := some "TaskRejected", timestamp := .ok 3, task_id := some "T" }

def evTaskAccepted : RawEvent :=
  { event := some "TaskAccepted", timestamp := .ok 5, task_id := some "T" }

def evTaskAcceptedFailed : RawEvent :=
  { event := some "TaskAccepted", timestamp := .ok 3, task_id := some "T",
    result := some "Failed" }

def evTermBlank : RawEvent :=
  { event := some "AgreementTerminated", timestamp := .ok 4, agr_id := some "A",
    reason := some "" }

def evTermAbsent : RawEvent :=
  { event := some "AgreementTerminated", timestamp := .ok 4, agr_id := some "A" }

def evBadTs : RawEvent :=
  { event := some "TaskStarted", timestamp := .missing, task_id := some "T" }

def evDebitBig : RawEvent :=
  { event := some "DebitNoteReceived", timestamp := .ok 1, amount := .ok ⟨1, 50⟩ }

def evDebitOne : RawEvent :=
  { event := some "DebitNoteReceived", timestamp := .ok 1, amount := .ok ⟨1, 0⟩ }

instance {ε α : Type} [DecidableEq ε] [DecidableEq α] : DecidableEq (Except ε α) := fun a b =>
  match a, b with
  | .ok x, .ok y =>
      if h : x = y then .isTrue (by rw [h]) else .isFalse fun hc => h (Except.ok.inj hc)
  | .error x, .error y =>
      if h : x = y then .isTrue (by rw [h]) else .isFalse fun hc => h (Except.error.inj hc)
  | .ok _, .error _ => .isFalse fun hc => Except.noConfusion hc
  | .error _, .ok _ => .isFalse fun hc => Except.noConfusion hc

/-- The first `ProposalReceived` timestamp for `pid` in stream order, as
the claim's amended wording describes it (events whose timestamp failed to
parse cannot occur in a successfully processed stream). -/
def firstProposalTs : List RawEvent → Key → Option ℚ
  | [], _ => none
  | e :: es, pid =>
      if e.event = some "ProposalReceived" ∧ e.provider_id = pid then
        match e.timestamp with
        | .ok t => some t
        | _ => firstProposalTs es pid
      else firstProposalTs es pid

/-- Task ids of `TaskStarted` events, in order. -/
def startedIds (es : List RawEvent) : List Key :=
  (es.filter fun e => decide (e.event = some "TaskStarted")).map fun e => e.task_id

/-- All-null statistics record (fallback only, never reached on the
exhibit streams). -/
def dummyStats : StatsRec := ⟨0, none, none, none, none, none, none, none⟩

def dummySummary : Summary :=
  ⟨none, 0, 0, ⟨0, 0⟩, ⟨0, 0⟩, [], [], dummyStats, dummyStats, dummyStats,
    dummyStats, dummyStats, dummyStats⟩

def C1es : List RawEvent := [evStart, evTaskStarted, evTaskRejected]

def C1sum : Summary :=
  match analyze_results C1es with
  | .ok (some su) => su
  | _ => dummySummary

def C3es : List RawEvent := [evTaskStarted]

def C3st : St :=
  match processEvents C3es with
  | .ok s => s
  | .error _ => St0

def C5es : List RawEvent := [evProposalP5, evProposalP1]

def C5st : St :=
  match processEvents C5es with
  | .ok s => s
  | .error _ => St0

def C6st : St :=
  match processEvents [evStart, evTaskStarted] with
  | .ok s => s
  | .error _ => St0

def C6st' : St :=
  match step C6st evTaskAccepted with
  | .ok s => s
  | .error _ => St0

def C7st : St :=
  match processEvents [evStart] with
  | .ok s => s
  | .error _ => St0

def C9st' : St :=
  match step St0 evTermAbsent with
  | .ok s => s
  | .error _ => St0

def C10es : List RawEvent := [evStart, evAgrCreated, evTaskStarted, evTaskAcceptedFailed]

def C10st : St :=
  match processEvents [evStart, evAgrCreated, evTaskStarted] with
  | .ok s => s
  | .error _ => St0

def C10st' : St :=
  match step C10st evTaskAcceptedFailed with
  | .ok s => s
  | .error _ => St0

/-! ### Dictionary lemmas -/

theorem getv_setv_self {κ β : Type} [DecidableEq κ] (m : Dict κ β) (k : κ) (v : β) :
    getv (setv m k v) k = some v := by
  induction m with
  | nil => simp [setv, getv]
  | cons kv m ih =>
      obtain ⟨k0, v0⟩ := kv
      by_cases hk : k = k0
      · subst hk; simp [setv, getv]
      · simp [setv, getv, hk, ih]

theorem getv_setv_ne {κ β : Type} [DecidableEq κ] (m : Dict κ β) (k k' : κ) (v : β)
    (h : k' ≠ k) : getv (setv m k v) k' = getv m k' := by
  induction m with
  | nil => simp [setv, getv, h]
  | cons kv m ih =>
      obtain ⟨k0, v0⟩ := kv
      by_cases hk : k = k0
      · subst hk; simp [setv, getv, h]
      · by_cases hk' : k' = k0
        · subst hk'; simp [setv, getv, hk]
        · simp [setv, getv, hk, hk', ih]

theorem mem_keys_setv {κ β : Type} [DecidableEq κ] (m : Dict κ β) (k k' : κ) (v : β) :
    k' ∈ keys (setv m k v) ↔ k' ∈ keys m ∨ k' = k := by
  induction m with
  | nil => simp [setv, keys]
  | cons kv m ih =>
      obtain ⟨k0, v0⟩ := kv
      by_cases hk : k = k0
      · subst hk; simp [setv, keys]; tauto
      · simp [setv, keys, hk] at ih ⊢; tauto

theorem keys_setv_of_isSome {κ β : Type} [DecidableEq κ] (m : Dict κ β) (k : κ) (v : β)
    (h : (getv m k).isSome) : keys (setv m k v) = keys m := by
  induction m with
  | nil => simp [getv] at h
  | cons kv m ih =>
      obtain ⟨k0, v0⟩ := kv
      by_cases hk : k = k0
      · subst hk; simp [setv, keys]
      · simp [getv, hk] at h
        have hkeys := ih h
        simp only [keys] at hkeys
        simp only [setv, if_neg hk, keys, List.map_cons, hkeys]

theorem getv_isSome_iff_mem {κ β : Type} [DecidableEq κ] (m : Dict κ β) (k : κ) :
    (getv m k).isSome ↔ k ∈ keys m := by
  induction m with
  | nil => simp [getv, keys]
  | cons kv m ih =>
      obtain ⟨k0, v0⟩ := kv
      by_cases hk : k = k0
      · subst hk; simp [getv, keys]
      · simp [getv, keys, hk, ih]

theorem nodup_keys_setv {κ β : Type} [DecidableEq κ] (m : Dict κ β) (k : κ) (v : β)
    (h : (keys m).Nodup) : (keys (setv m k v)).Nodup := by
  induction m with
  | nil => simp [setv, keys]
  | cons kv m ih =>
      obtain ⟨k0, v0⟩ := kv
      simp only [keys, List.map_cons, List.nodup_cons] at h
      by_cases hk : k = k0
      · subst hk
        simp only [setv, eq_self_iff_true, if_true, keys, List.map_cons, List.nodup_cons]
        exact h
      · simp only [setv, if_neg hk, keys, List.map_cons, List.nodup_cons]
        refine ⟨fun hmem => ?_, ih h.2⟩
        rcases (mem_keys_setv m k k0 v).mp hmem with hin | heq
        · exact h.1 hin
        · exact hk heq.symm

theorem length_setv {κ β : Type} [DecidableEq κ] (m : Dict κ β) (k : κ) (v : β) :
    (setv m k v).length = if (getv m k).isSome then m.length else m.length + 1 := by
  induction m with
  | nil => simp [setv, getv]
  | cons kv m ih =>
      obtain ⟨k0, v0⟩ := kv
      by_cases hk : k = k0
      · subst hk; simp [setv, getv]
      · simp [setv, getv, hk, ih]
        split <;> simp

/-! ### Frame lemmas for the event loop -/

theorem processFrom_append (s : St) (es₁ es₂ : List RawEvent) :
    processFrom s (es₁ ++ es₂) =
      match processFrom s es₁ with
      | .ok s' => processFrom s' es₂
      | .error err => .error err := by
  induction es₁ generalizing s with
  | nil => simp [processFrom]
  | cons e es ih =>
      simp only [List.cons_append, processFrom]
      rcases hstep : step s e with err | s1 <;> simp [hstep, ih]

theorem onAgreementCreated_proposals (s : St) (e : RawEvent) (ts : ℚ) :
    (onAgreementCreated s e ts).proposals = s.proposals := by
  simp only [onAgreementCreated]; split <;> rfl

theorem onWorkerStarted_proposals (s : St) (aid : Key) (ts : ℚ) :
    (onWorkerStarted s aid ts).proposals = s.proposals := by
  unfold onWorkerStarted; split <;> rfl

theorem bumpProv_proposals (s : St) (aid : Key) (f : ProvStats → ProvStats) :
    (bumpProv s aid f).proposals = s.proposals := by
  unfold bumpProv; repeat' split
  all_goals rfl

theorem onTaskStarted_proposals (s : St) (tid aid : Key) (ts : ℚ) :
    (onTaskStarted s tid aid ts).proposals = s.proposals := by
  unfold onTaskStarted; rw [bumpProv_proposals]

theorem onTaskAccepted_proposals (s : St) (tid : Key) (r : Option String) (ts : ℚ) :
    (onTaskAccepted s tid r ts).proposals = s.proposals := by
  unfold onTaskAccepted; split
  · rw [bumpProv_proposals]
  · rfl

theorem onTaskTerminal_proposals (s : St) (tid : Key) (ts : ℚ) :
    (onTaskTerminal s tid ts).proposals = s.proposals := by
  unfold onTaskTerminal; split
  · rw [bumpProv_proposals]
  · rfl

set_option maxHeartbeats 1600000 in
theorem dispatch_proposals (s : St) (e : RawEvent) (ts : ℚ) (s' : St)
    (h : dispatch s e ts = .ok s') :
    (e.event = some "ProposalReceived" ∧ getv s.proposals e.provider_id = none ∧
      s'.proposals = setv s.proposals e.provider_id ts) ∨
    s'.proposals = s.proposals := by
  unfold dispatch at h
  split_ifs at h with h1 h2 h3 h4 h5 h6 h7 h8 h9 h10
  all_goals try (cases h; right; rfl)
  all_goals try (cases h; right; simp only [onAgreementCreated_proposals, onWorkerStarted_proposals, onTaskStarted_proposals, onTaskAccepted_proposals, onTaskTerminal_proposals])
  · -- ProposalReceived
    cases h
    by_cases hp : (getv s.proposals e.provider_id).isSome
    · right; simp [onProposal, hp]
    · left
      exact ⟨h3, Option.not_isSome_iff_eq_none.mp hp, by simp [onProposal, hp]⟩
  · -- DebitNoteReceived
    split at h <;> cases h
    right; rfl

theorem bumpProv_script_start (s : St) (aid : Key) (f : ProvStats → ProvStats) :
    (bumpProv s aid f).script_start_time = s.script_start_time := by
  unfold bumpProv; repeat' split
  all_goals rfl

theorem bumpProv_tasks (s : St) (aid : Key) (f : ProvStats → ProvStats) :
    (bumpProv s aid f).tasks = s.tasks := by
  unfold bumpProv; repeat' split
  all_goals rfl

theorem bumpProv_agreements (s : St) (aid : Key) (f : ProvStats → ProvStats) :
    (bumpProv s aid f).agreements = s.agreements := by
  unfold bumpProv; repeat' split
  all_goals rfl

theorem bumpProv_terminations (s : St) (aid : Key) (f : ProvStats → ProvStats) :
    (bumpProv s aid f).terminations = s.terminations := by
  unfold bumpProv; repeat' split
  all_goals rfl

theorem bumpProv_debit_notes (s : St) (aid : Key) (f : ProvStats → ProvStats) :
    (bumpProv s aid f).debit_notes = s.debit_notes := by
  unfold bumpProv; repeat' split
  all_goals rfl

theorem bumpProv_provider_keys (s : St) (aid : Key) (f : ProvStats → ProvStats) :
    keys (bumpProv s aid f).provider_stats = keys s.provider_stats := by
  unfold bumpProv; repeat' split
  all_goals try rfl
  rename_i a p hp
  exact keys_setv_of_isSome _ _ _ (by simp [hp])

theorem onProposal_frame (s : St) (pid : Key) (ts : ℚ) :
    (onProposal s pid ts).script_start_time = s.script_start_time ∧
    (onProposal s pid ts).tasks = s.tasks ∧
    (onProposal s pid ts).agreements = s.agreements ∧
    (onProposal s pid ts).terminations = s.terminations ∧
    (onProposal s pid ts).debit_notes = s.debit_notes ∧
    (onProposal s pid ts).provider_stats = s.provider_stats := by
  unfold onProposal; split <;> exact ⟨rfl, rfl, rfl, rfl, rfl, rfl⟩

theorem onAgreementCreated_frame (s : St) (e : RawEvent) (ts : ℚ) :
    (onAgreementCreated s e ts).script_start_time = s.script_start_time ∧
    (onAgreementCreated s e ts).tasks = s.tasks ∧
    (onAgreementCreated s e ts).terminations = s.terminations ∧
    (onAgreementCreated s e ts).debit_notes = s.debit_notes := by
  simp only [onAgreementCreated]; split <;> exact ⟨rfl, rfl, rfl, rfl⟩

theorem onAgreementCreated_agreements (s : St) (e : RawEvent) (ts : ℚ) :
    (onAgreementCreated s e ts).agreements =
      setv s.agreements e.agr_id
        { provider_id := e.provider_id, created_at := ts
          proposal_at := getv s.proposals e.provider_id
          provider_name := e.provider_name, worker_started_at := none } := by
  simp only [onAgreementCreated]; split <;> rfl

theorem onAgreementCreated_provider_keys (s : St) (e : RawEvent) (ts : ℚ) (k : Key)
    (h : k ∈ keys s.provider_stats) :
    k ∈ keys (onAgreementCreated s e ts).provider_stats := by
  simp only [onAgreementCreated]; split
  · exact h
  · exact (mem_keys_setv _ _ _ _).mpr (Or.inl h)

theorem onWorkerStarted_frame (s : St) (aid : Key) (ts : ℚ) :
    (onWorkerStarted s aid ts).script_start_time = s.script_start_time ∧
    (onWorkerStarted s aid ts).tasks = s.tasks ∧
    (onWorkerStarted s aid ts).terminations = s.terminations ∧
    (onWorkerStarted s aid ts).debit_notes = s.debit_notes ∧
    (onWorkerStarted s aid ts).provider_stats = s.provider_stats := by
  unfold onWorkerStarted; split <;> exact ⟨rfl, rfl, rfl, rfl, rfl⟩

theorem onWorkerStarted_agreements_keys (s : St) (aid : Key) (ts : ℚ) :
    keys (onWorkerStarted s aid ts).agreements = keys s.agreements := by
  unfold onWorkerStarted; split
  · rename_i a ha
    exact keys_setv_of_isSome _ _ _ (by simp [ha])
  · rfl

theorem onTaskStarted_frame (s : St) (tid aid : Key) (ts : ℚ) :
    (onTaskStarted s tid aid ts).script_start_time = s.script_start_time ∧
    (onTaskStarted s tid aid ts).agreements = s.agreements ∧
    (onTaskStarted s tid aid ts).terminations = s.terminations ∧
    (onTaskStarted s tid aid ts).debit_notes = s.debit_notes := by
  unfold onTaskStarted
  exact ⟨bumpProv_script_start .., bumpProv_agreements .., bumpProv_terminations ..,
    bumpProv_debit_notes ..⟩

theorem onTaskStarted_tasks (s : St) (tid aid : Key) (ts : ℚ) :
    (onTaskStarted s tid aid ts).tasks =
      setv s.tasks tid { started_at := ts, agr_id := aid } := by
  unfold onTaskStarted; rw [bumpProv_tasks]

theorem onTaskStarted_provider_keys (s : St) (tid aid : Key) (ts : ℚ) :
    keys (onTaskStarted s tid aid ts).provider_stats = keys s.provider_stats := by
  unfold onTaskStarted; rw [bumpProv_provider_keys]

theorem onTaskAccepted_frame (s : St) (tid : Key) (r : Option String) (ts : ℚ) :
    (onTaskAccepted s tid r ts).script_start_time = s.script_start_time ∧
    (onTaskAccepted s tid r ts).agreements = s.agreements ∧
    (onTaskAccepted s tid r ts).terminations = s.terminations ∧
    (onTaskAccepted s tid r ts).debit_notes = s.debit_notes := by
  unfold onTaskAccepted; split
  · exact ⟨bumpProv_script_start .., bumpProv_agreements .., bumpProv_terminations ..,
      bumpProv_debit_notes ..⟩
  · exact ⟨rfl, rfl, rfl, rfl⟩

theorem onTaskAccepted_tasks_keys (s : St) (tid : Key) (r : Option String) (ts : ℚ) :
    keys (onTaskAccepted s tid r ts).tasks = keys s.tasks := by
  unfold onTaskAccepted; split
  · rename_i t ht
    rw [bumpProv_tasks]
    exact keys_setv_of_isSome _ _ _ (by simp [ht])
  · rfl

theorem onTaskAccepted_provider_keys (s : St) (tid : Key) (r : Option String) (ts : ℚ) :
    keys (onTaskAccepted s tid r ts).provider_stats = keys s.provider_stats := by
  unfold onTaskAccepted; split
  · rw [bumpProv_provider_keys]
  · rfl

theorem onTaskTerminal_frame (s : St) (tid : Key) (ts : ℚ) :
    (onTaskTerminal s tid ts).script_start_time = s.script_start_time ∧
    (onTaskTerminal s tid ts).agreements = s.agreements ∧
    (onTaskTerminal s tid ts).terminations = s.terminations ∧
    (onTaskTerminal s tid ts).debit_notes = s.debit_notes := by
  unfold onTaskTerminal; split
  · exact ⟨bumpProv_script_start .., bumpProv_agreements .., bumpProv_terminations ..,
      bumpProv_debit_notes ..⟩
  · exact ⟨rfl, rfl, rfl, rfl⟩

theorem onTaskTerminal_tasks_keys (s : St) (tid : Key) (ts : ℚ) :
    keys (onTaskTerminal s tid ts).tasks = keys s.tasks := by
  unfold onTaskTerminal; split
  · rename_i t ht
    rw [bumpProv_tasks]
    exact keys_setv_of_isSome _ _ _ (by simp [ht])
  · rfl

theorem onTaskTerminal_provider_keys (s : St) (tid : Key) (ts : ℚ) :
    keys (onTaskTerminal s tid ts).provider_stats = keys s.provider_stats := by
  unfold onTaskTerminal; split
  · rw [bumpProv_provider_keys]
  · rfl

theorem onAgreementTerminated_frame (s : St) (reason : Option String) :
    (onAgreementTerminated s reason).script_start_time = s.script_start_time ∧
    (onAgreementTerminated s reason).tasks = s.tasks ∧
    (onAgreementTerminated s reason).agreements = s.agreements ∧
    (onAgreementTerminated s reason).debit_notes = s.debit_notes ∧
    (onAgreementTerminated s reason).provider_stats = s.provider_stats := by
  exact ⟨rfl, rfl, rfl, rfl, rfl⟩

set_option maxHeartbeats 1600000 in
theorem dispatch_script_start (s : St) (e : RawEvent) (ts : ℚ) (s' : St)
    (h : dispatch s e ts = .ok s') :
    s'.script_start_time =
      if e.event = some "script_start" then some ts else s.script_start_time := by
  unfold dispatch at h
  split_ifs at h with h1 h2 h3 h4 h5 h6 h7 h8 h9 h10
  all_goals try (cases h; simp [h1, (onProposal_frame s e.provider_id ts).1,
    (onAgreementCreated_frame s e ts).1, (onWorkerStarted_frame s e.agr_id ts).1,
    (onTaskStarted_frame s e.task_id e.agr_id ts).1,
    (onTaskAccepted_frame s e.task_id e.result ts).1, (onTaskTerminal_frame s e.task_id ts).1,
    (onAgreementTerminated_frame s e.reason).1])
  split at h <;> cases h
  simp [h1]

set_option maxHeartbeats 1600000 in
theorem dispatch_tasks_keys (s : St) (e : RawEvent) (ts : ℚ) (s' : St)
    (h : dispatch s e ts = .ok s') :
    keys s'.tasks = keys s.tasks ∨
    (e.event = some "TaskStarted" ∧
      keys s'.tasks = keys (setv s.tasks e.task_id
        ({ started_at := ts, agr_id := e.agr_id } : TaskRec))) := by
  unfold dispatch at h
  split_ifs at h with h1 h2 h3 h4 h5 h6 h7 h8 h9 h10
  all_goals try (cases h; left; simp [(onProposal_frame s e.provider_id ts).2.1,
    (onAgreementCreated_frame s e ts).2.1, (onWorkerStarted_frame s e.agr_id ts).2.1,
    onTaskAccepted_tasks_keys, onTaskTerminal_tasks_keys,
    (onAgreementTerminated_frame s e.reason).2.1])
  · -- TaskStarted
    cases h
    right
    exact ⟨h6, by rw [onTaskStarted_tasks]⟩
  · -- DebitNoteReceived
    split at h <;> cases h
    left; rfl

set_option maxHeartbeats 1600000 in
theorem dispatch_keys_mono (s : St) (e : RawEvent) (ts : ℚ) (s' : St)
    (h : dispatch s e ts = .ok s') :
    (∀ k, k ∈ keys s.agreements → k ∈ keys s'.agreements) ∧
    (∀ k, k ∈ keys s.tasks → k ∈ keys s'.tasks) ∧
    (∀ k, k ∈ keys s.provider_stats → k ∈ keys s'.provider_stats) := by
  unfold dispatch at h
  split_ifs at h with h1 h2 h3 h4 h5 h6 h7 h8 h9 h10
  all_goals try (cases h; exact ⟨fun k hk => hk, fun k hk => hk, fun k hk => hk⟩)
  · -- ProposalReceived
    cases h
    obtain ⟨-, ht, ha, -, -, hp⟩ := onProposal_frame s e.provider_id ts
    rw [ht, ha, hp]
    exact ⟨fun k hk => hk, fun k hk => hk, fun k hk => hk⟩
  · -- AgreementCreated
    cases h
    obtain ⟨-, ht, -, -⟩ := onAgreementCreated_frame s e ts
    rw [ht, onAgreementCreated_agreements]
    exact ⟨fun k hk => (mem_keys_setv _ _ _ _).mpr (Or.inl hk), fun k hk => hk,
      fun k hk => onAgreementCreated_provider_keys s e ts k hk⟩
  · -- WorkerStarted
    cases h
    obtain ⟨-, ht, -, -, hp⟩ := onWorkerStarted_frame s e.agr_id ts
    rw [ht, hp, onWorkerStarted_agreements_keys]
    exact ⟨fun k hk => hk, fun k hk => hk, fun k hk => hk⟩
  · -- TaskStarted
    cases h
    obtain ⟨-, ha, -, -⟩ := onTaskStarted_frame s e.task_id e.agr_id ts
    rw [ha, onTaskStarted_tasks, onTaskStarted_provider_keys]
    exact ⟨fun k hk => hk, fun k hk => (mem_keys_setv _ _ _ _).mpr (Or.inl hk),
      fun k hk => hk⟩
  · -- TaskAccepted
    cases h
    obtain ⟨-, ha, -, -⟩ := onTaskAccepted_frame s e.task_id e.result ts
    rw [ha, onTaskAccepted_tasks_keys, onTaskAccepted_provider_keys]
    exact ⟨fun k hk => hk, fun k hk => hk, fun k hk => hk⟩
  · -- TaskRejected / TaskFailed
    cases h
    obtain ⟨-, ha, -, -⟩ := onTaskTerminal_frame s e.task_id ts
    rw [ha, onTaskTerminal_tasks_keys, onTaskTerminal_provider_keys]
    exact ⟨fun k hk => hk, fun k hk => hk, fun k hk => hk⟩
  · -- DebitNoteReceived
    split at h <;> cases h
    exact ⟨fun k hk => hk, fun k hk => hk, fun k hk => hk⟩

theorem step_ok (s : St) (e : RawEvent) (s' : St) (h : step s e = .ok s') :
    ∃ t, e.timestamp = .ok t ∧ dispatch s e t = .ok s' := by
  unfold step at h
  split at h
  · cases h
  · cases h
  · rename_i t ht
    exact ⟨t, ht, h⟩

/-- No `script_start` is recorded at the end of the loop iff none was
recorded before and no event of the stream is a `script_start`. -/
theorem processFrom_script_start (es : List RawEvent) (s s' : St)
    (h : processFrom s es = .ok s') :
    (s'.script_start_time = none ↔
      (s.script_start_time = none ∧ ∀ e ∈ es, e.event ≠ some "script_start")) := by
  induction es generalizing s with
  | nil =>
      cases h
      simp
  | cons e es ih =>
      unfold processFrom at h
      rcases hstep : step s e with err | s1
      · rw [hstep] at h; cases h
      · rw [hstep] at h
        obtain ⟨t, ht, hd⟩ := step_ok s e s1 hstep
        have hss := dispatch_script_start s e t s1 hd
        rw [ih s1 h, hss]
        by_cases he : e.event = some "script_start"
        · simp [he]
        · simp only [if_neg he]
          constructor
          · rintro ⟨h1, h2⟩
            exact ⟨h1, by simpa [he] using h2⟩
          · rintro ⟨h1, h2⟩
            exact ⟨h1, fun x hx => h2 x (List.mem_cons_of_mem e hx)⟩

/-- After processing, a provider's recorded proposal time is the one already
recorded, or else the first proposal timestamp of the stream. -/
theorem processFrom_proposals (es : List RawEvent) (s s' : St)
    (h : processFrom s es = .ok s') (pid : Key) :
    getv s'.proposals pid =
      match getv s.proposals pid with
      | some v => some v
      | none => firstProposalTs es pid := by
  induction es generalizing s with
  | nil =>
      cases h
      cases getv s'.proposals pid <;> simp [firstProposalTs]
  | cons e es ih =>
      unfold processFrom at h
      rcases hstep : step s e with err | s1
      · rw [hstep] at h; cases h
      · rw [hstep] at h
        obtain ⟨t, ht, hd⟩ := step_ok s e s1 hstep
        rw [ih s1 h]
        rcases dispatch_proposals s e t s1 hd with ⟨hev, hnone, hset⟩ | hsame
        · -- a ProposalReceived that recorded the provider
          by_cases hp : e.provider_id = pid
          · subst hp
            rw [hset, getv_setv_self, hnone]
            simp [firstProposalTs, hev, ht]
          · rw [hset, getv_setv_ne _ _ _ _ (fun hq => hp hq.symm)]
            have : ¬(e.event = some "ProposalReceived" ∧ e.provider_id = pid) := by
              rintro ⟨-, hq⟩; exact hp hq
            simp only [firstProposalTs, if_neg this]
        · rw [hsame]
          cases hg : getv s.proposals pid
          · -- nothing recorded yet: the event did not record pid either
            by_cases hcond : e.event = some "ProposalReceived" ∧ e.provider_id = pid
            · -- the dispatch left proposals unchanged although the event matched:
              -- only possible because pid was already recorded; contradiction
              obtain ⟨hev, hp⟩ := hcond
              subst hp
              -- re-examine the dispatch on a ProposalReceived event
              unfold dispatch at hd
              rw [if_neg (by simp [hev]), if_neg (by simp [hev]), if_pos hev] at hd
              cases hd
              unfold onProposal at hsame
              split at hsame
              · rename_i hsome
                rw [hg] at hsome; cases hsome
              · rename_i hnone2
                exfalso
                have h2 : setv s.proposals e.provider_id t = s.proposals := hsame
                have := getv_setv_self s.proposals e.provider_id t
                rw [h2, hg] at this
                cases this
            · simp only [firstProposalTs, if_neg hcond]
          · rfl

theorem processFrom_tasks_keys (es : List RawEvent) (s s' : St)
    (h : processFrom s es = .ok s') :
    (∀ k, k ∈ keys s'.tasks ↔ (k ∈ keys s.tasks ∨ k ∈ startedIds es)) ∧
    ((keys s.tasks).Nodup → (keys s'.tasks).Nodup) := by
  induction es generalizing s with
  | nil =>
      cases h
      simp [startedIds]
  | cons e es ih =>
      unfold processFrom at h
      rcases hstep : step s e with err | s1
      · rw [hstep] at h; cases h
      · rw [hstep] at h
        obtain ⟨t, ht, hd⟩ := step_ok s e s1 hstep
        obtain ⟨ihmem, ihnd⟩ := ih s1 h
        rcases dispatch_tasks_keys s e t s1 hd with hsame | ⟨hev, hset⟩
        · have hids : startedIds (e :: es) = startedIds es ∨
              (e.event = some "TaskStarted" ∧ startedIds (e :: es) = e.task_id :: startedIds es) := by
            by_cases hts : e.event = some "TaskStarted"
            · right; exact ⟨hts, by simp [startedIds, hts]⟩
            · left; simp [startedIds, hts]
          rcases hids with hids | ⟨hts, hids⟩
          · exact ⟨fun k => by rw [ihmem k, hsame, hids], fun hnd => ihnd (hsame ▸ hnd)⟩
          · -- a TaskStarted event whose dispatch left the keys unchanged
            -- reused an existing task id
            have hd' := hd
            unfold dispatch at hd'
            rw [if_neg (by simp [hts]), if_neg (by simp [hts]), if_neg (by simp [hts]),
              if_neg (by simp [hts]), if_neg (by simp [hts]), if_pos hts] at hd'
            have hs1 : s1 = onTaskStarted s e.task_id e.agr_id t := by
              cases hd'; rfl
            have hmem : e.task_id ∈ keys s.tasks := by
              rw [← hsame, hs1, onTaskStarted_tasks]
              exact (mem_keys_setv _ _ _ _).mpr (Or.inr rfl)
            refine ⟨fun k => ?_, fun hnd => ihnd (hsame ▸ hnd)⟩
            rw [ihmem k, hsame, hids]
            simp only [List.mem_cons]
            constructor
            · rintro (hk | hk)
              · exact Or.inl hk
              · exact Or.inr (Or.inr hk)
            · rintro (hk | hk | hk)
              · exact Or.inl hk
              · exact Or.inl (hk ▸ hmem)
              · exact Or.inr hk
        · constructor
          · intro k
            rw [ihmem k, hset, mem_keys_setv]
            simp [startedIds, hev]
            tauto
          · intro hnd
            exact ihnd (hset ▸ nodup_keys_setv _ _ _ hnd)

theorem processFrom_keys_mono (es : List RawEvent) (s s' : St)
    (h : processFrom s es = .ok s') :
    (∀ k, k ∈ keys s.agreements → k ∈ keys s'.agreements) ∧
    (∀ k, k ∈ keys s.tasks → k ∈ keys s'.tasks) ∧
    (∀ k, k ∈ keys s.provider_stats → k ∈ keys s'.provider_stats) := by
  induction es generalizing s with
  | nil =>
      cases h
      exact ⟨fun k hk => hk, fun k hk => hk, fun k hk => hk⟩
  | cons e es ih =>
      unfold processFrom at h
      rcases hstep : step s e with err | s1
      · rw [hstep] at h; cases h
      · rw [hstep] at h
        obtain ⟨t, ht, hd⟩ := step_ok s e s1 hstep
        obtain ⟨ha1, ht1, hp1⟩ := dispatch_keys_mono s e t s1 hd
        obtain ⟨ha2, ht2, hp2⟩ := ih s1 h
        exact ⟨fun k hk => ha2 k (ha1 k hk), fun k hk => ht2 k (ht1 k hk),
          fun k hk => hp2 k (hp1 k hk)⟩

/-! ### Claim theorems -/

/-- C2 (amended): a record whose timestamp is missing or unparseable — or a
debit-note record whose amount is missing or unparseable — is not dropped:
the loop raises at that record and the whole analysis aborts with the
exception, regardless of how many events follow. -/
theorem C2_parse_errors_abort (es₁ es₂ : List RawEvent) (e : RawEvent) (s : St)
    (h : processEvents es₁ = .ok s)
    (hbad : e.timestamp = .missing ∨ e.timestamp = .malformed ∨
      (e.event = some "DebitNoteReceived" ∧
        (e.amount = .missing ∨ e.amount = .malformed) ∧ ∃ t, e.timestamp = .ok t)) :
    ∃ err, processEvents (es₁ ++ e :: es₂) = .error err ∧
      analyze_results (es₁ ++ e :: es₂) = .error err := by
  have hstep : ∃ err, step s e = .error err := by
    rcases hbad with hm | hm | ⟨hev, ham, t, ht⟩
    · exact ⟨.typeError, by unfold step; rw [hm]⟩
    · exact ⟨.valueError, by unfold step; rw [hm]⟩
    · have hchain : dispatch s e t =
          match e.amount with
          | .missing => .error .keyError
          | .malformed => .error .invalidOperation
          | .ok d => .ok { s with debit_notes := s.debit_notes ++ [d] } := by
        unfold dispatch
        rw [if_neg (by simp [hev]), if_neg (by simp [hev]), if_neg (by simp [hev]),
          if_neg (by simp [hev]), if_neg (by simp [hev]), if_neg (by simp [hev]),
          if_neg (by simp [hev]), if_neg (by simp [hev]), if_pos hev]
      rcases ham with ham | ham
      · refine ⟨.keyError, ?_⟩
        unfold step
        rw [ht]
        show dispatch s e t = _
        rw [hchain, ham]
      · refine ⟨.invalidOperation, ?_⟩
        unfold step
        rw [ht]
        show dispatch s e t = _
        rw [hchain, ham]
  obtain ⟨err, herr⟩ := hstep
  refine ⟨err, ?_, ?_⟩
  · unfold processEvents at h ⊢
    rw [processFrom_append, h]
    unfold processFrom
    rw [herr]
  · unfold analyze_results
    rw [show processEvents (es₁ ++ e :: es₂) = .error err from by
      unfold processEvents at h ⊢
      rw [processFrom_append, h]
      unfold processFrom
      rw [herr]]

/-- C3: provided every record of the stream parses (the loop completes),
the analysis returns no statistics exactly when no `script_start` event
occurs anywhere in the stream (the MissingRunStart report), and returns the
summary document as soon as one does. -/
theorem C3_missing_run_start (es : List RawEvent) (s : St)
    (h : processEvents es = .ok s) :
    (analyze_results es = .ok none ↔ ∀ e ∈ es, e.event ≠ some "script_start") ∧
    ((∃ e ∈ es, e.event = some "script_start") →
      ∃ sum, analyze_results es = .ok (some sum)) := by
  have hstart := processFrom_script_start es St0 s h
  simp only [show St0.script_start_time = none from rfl, true_and] at hstart
  have hana : analyze_results es =
      match s.script_start_time with
      | none => .ok none
      | some start => .ok (some (summarize s start)) := by
    unfold analyze_results
    rw [show processEvents es = .ok s from h]
  constructor
  · rw [hana]
    rcases hs : s.script_start_time with _ | start
    · simpa [hs] using hstart
    · rw [hs] at hstart
      constructor
      · intro hcontra
        exact absurd (Except.ok.inj hcontra) (by simp)
      · intro hall
        exact absurd (hstart.mpr hall) (by simp)
  · rintro ⟨e, he, hev⟩
    rw [hana]
    rcases hs : s.script_start_time with _ | start
    · exfalso
      rw [hs] at hstart
      exact (hstart.mp rfl) e he hev
    · exact ⟨summarize s start, rfl⟩

/-- C5 (amended): a provider's recorded first proposal time is the
timestamp of the first `ProposalReceived` event for that provider in
stream order (later proposal events never change it); this coincides with
the minimum timestamp only when timestamps are nondecreasing along the
stream. -/
theorem C5_first_proposal (es : List RawEvent) (s : St) (pid : Key)
    (h : processEvents es = .ok s) :
    getv s.proposals pid = firstProposalTs es pid := by
  have := processFrom_proposals es St0 s h pid
  simpa [show getv St0.proposals pid = none from rfl] using this

theorem dispatch_worker (s : St) (e : RawEvent) (ts : ℚ)
    (hev : e.event = some "WorkerStarted") :
    dispatch s e ts = .ok (onWorkerStarted s e.agr_id ts) := by
  unfold dispatch
  rw [if_neg (by simp [hev]), if_neg (by simp [hev]), if_neg (by simp [hev]),
    if_neg (by simp [hev]), if_pos hev]

theorem dispatch_taskAccepted (s : St) (e : RawEvent) (ts : ℚ)
    (hev : e.event = some "TaskAccepted") :
    dispatch s e ts = .ok (onTaskAccepted s e.task_id e.result ts) := by
  unfold dispatch
  rw [if_neg (by simp [hev]), if_neg (by simp [hev]), if_neg (by simp [hev]),
    if_neg (by simp [hev]), if_neg (by simp [hev]), if_neg (by simp [hev]), if_pos hev]

theorem dispatch_taskTerminal (s : St) (e : RawEvent) (ts : ℚ)
    (hev : e.event = some "TaskRejected" ∨ e.event = some "TaskFailed") :
    dispatch s e ts = .ok (onTaskTerminal s e.task_id ts) := by
  have hne : ∀ (x : String), x ≠ "TaskRejected" → x ≠ "TaskFailed" →
      e.event ≠ some x := by
    intro x hx1 hx2 hx
    rcases hev with hev | hev
    · rw [hx] at hev; exact hx1 (Option.some.inj hev)
    · rw [hx] at hev; exact hx2 (Option.some.inj hev)
  unfold dispatch
  rw [if_neg (hne _ (by decide) (by decide)), if_neg (hne _ (by decide) (by decide)),
    if_neg (hne _ (by decide) (by decide)), if_neg (hne _ (by decide) (by decide)),
    if_neg (hne _ (by decide) (by decide)), if_neg (hne _ (by decide) (by decide)),
    if_neg (hne _ (by decide) (by decide)), if_pos hev]

theorem dispatch_agreementTerminated (s : St) (e : RawEvent) (ts : ℚ)
    (hev : e.event = some "AgreementTerminated") :
    dispatch s e ts = .ok (onAgreementTerminated s e.reason) := by
  unfold dispatch
  rw [if_neg (by simp [hev]), if_neg (by simp [hev]), if_neg (by simp [hev]),
    if_neg (by simp [hev]), if_neg (by simp [hev]), if_neg (by simp [hev]),
    if_neg (by simp [hev]), if_neg (by simp [hev]), if_neg (by simp [hev]), if_pos hev]

theorem onTaskAccepted_getv (s : St) (tid : Key) (r : Option String) (ts : ℚ) (t : TaskRec)
    (htask : getv s.tasks tid = some t) :
    getv (onTaskAccepted s tid r ts).tasks tid =
      some { t with finished_at := some ts, duration := some (ts - t.started_at),
                    result := some r } := by
  simp only [onTaskAccepted, htask]
  rw [bumpProv_tasks]
  exact getv_setv_self ..

/-- C6 (amended): a `TaskAccepted` event on an existing task sets
`finished_at` and `duration` together, with
`duration = finished_at − started_at`; the duration is non-negative
whenever the accepting timestamp is not before `started_at`.
(`TaskRejected`/`TaskFailed` set `finished_at` without touching `duration`,
so a task can end with both timestamps and no duration.) -/
theorem C6_accept_sets_duration (s : St) (e : RawEvent) (ts : ℚ) (s' : St) (t : TaskRec)
    (hev : e.event = some "TaskAccepted") (ht : e.timestamp = .ok ts)
    (htask : getv s.tasks e.task_id = some t)
    (h : step s e = .ok s') :
    getv s'.tasks e.task_id =
      some { t with finished_at := some ts, duration := some (ts - t.started_at),
                    result := some e.result } ∧
    (t.started_at ≤ ts → 0 ≤ ts - t.started_at) := by
  unfold step at h
  rw [ht] at h
  have h' : dispatch s e ts = .ok s' := h
  rw [dispatch_taskAccepted s e ts hev] at h'
  cases h'
  exact ⟨onTaskAccepted_getv s e.task_id e.result ts t htask, fun hle => sub_nonneg.mpr hle⟩

/-- C7: a `WorkerStarted` event whose agreement is unknown, or a
`TaskAccepted`/`TaskRejected`/`TaskFailed` event whose task is unknown, is
dropped silently: the step succeeds and returns the state unchanged.
Moreover no provider, agreement or task record is ever removed by
processing any event sequence. -/
theorem C7_unknown_refs_dropped (s : St) (e : RawEvent) (t : ℚ)
    (ht : e.timestamp = .ok t)
    (hk : e.event = some "WorkerStarted" ∨ e.event = some "TaskAccepted" ∨
      e.event = some "TaskRejected" ∨ e.event = some "TaskFailed")
    (hagr : e.event = some "WorkerStarted" → getv s.agreements e.agr_id = none)
    (htask : e.event ≠ some "WorkerStarted" → getv s.tasks e.task_id = none) :
    step s e = .ok s ∧
    (∀ (s₂ : St) (es : List RawEvent) (s₂' : St), processFrom s₂ es = .ok s₂' →
      (∀ k, k ∈ keys s₂.agreements → k ∈ keys s₂'.agreements) ∧
      (∀ k, k ∈ keys s₂.tasks → k ∈ keys s₂'.tasks) ∧
      (∀ k, k ∈ keys s₂.provider_stats → k ∈ keys s₂'.provider_stats)) := by
  refine ⟨?_, fun s₂ es s₂' hp => processFrom_keys_mono es s₂ s₂' hp⟩
  unfold step
  rw [ht]
  show dispatch s e t = .ok s
  rcases hk with hev | hev | hev | hev
  · rw [dispatch_worker s e t hev]
    simp only [onWorkerStarted, hagr hev]
  · rw [dispatch_taskAccepted s e t hev]
    simp only [onTaskAccepted, htask (by simp [hev])]
  · rw [dispatch_taskTerminal s e t (Or.inl hev)]
    simp only [onTaskTerminal, htask (by simp [hev])]
  · rw [dispatch_taskTerminal s e t (Or.inr hev)]
    simp only [onTaskTerminal, htask (by simp [hev])]

/-- C9 (amended): every `AgreementTerminated` event increments the
termination histogram by exactly one at the key
`str(event.get("reason", "Unknown"))`: the default applies only when the
`reason` field is absent, so a blank reason string is counted under the
blank key, not under "Unknown". -/
theorem C9_termination_histogram (s : St) (e : RawEvent) (ts : ℚ) (s' : St)
    (hev : e.event = some "AgreementTerminated") (ht : e.timestamp = .ok ts)
    (h : step s e = .ok s') (r : String) :
    (getv s'.terminations r).getD 0 =
      (getv s.terminations r).getD 0 +
        (if r = e.reason.getD "Unknown" then 1 else 0) := by
  unfold step at h
  rw [ht] at h
  have h' : dispatch s e ts = .ok s' := h
  rw [dispatch_agreementTerminated s e ts hev] at h'
  cases h'
  simp only [onAgreementTerminated]
  by_cases hr : r = e.reason.getD "Unknown"
  · rw [if_pos hr, hr, getv_setv_self]
    rfl
  · rw [if_neg hr, getv_setv_ne _ _ _ _ hr, Nat.add_zero]

/-- C10: a `TaskAccepted` event that correlates to an existing task whose
agreement resolves to a known provider increments that provider's
`tasks_successful` counter no matter what the event's `result` payload is;
the task record itself stores that payload verbatim, so a result of
`"Failed"` is simultaneously counted as a run-level failure. -/
theorem C10_accept_increments (s : St) (e : RawEvent) (ts : ℚ) (s' : St)
    (t : TaskRec) (a : AgreementRec) (p : ProvStats)
    (hev : e.event = some "TaskAccepted") (ht : e.timestamp = .ok ts)
    (htask : getv s.tasks e.task_id = some t)
    (hagr : getv s.agreements t.agr_id = some a)
    (hprov : getv s.provider_stats a.provider_id = some p)
    (h : step s e = .ok s') :
    getv s'.provider_stats a.provider_id =
      some { p with tasks_successful := p.tasks_successful + 1 } ∧
    getv s'.tasks e.task_id =
      some { t with finished_at := some ts, duration := some (ts - t.started_at),
                    result := some e.result } := by
  unfold step at h
  rw [ht] at h
  have h' : dispatch s e ts = .ok s' := h
  rw [dispatch_taskAccepted s e ts hev] at h'
  cases h'
  refine ⟨?_, onTaskAccepted_getv s e.task_id e.result ts t htask⟩
  simp only [onTaskAccepted, htask, bumpProv, hagr, hprov]
  exact getv_setv_self ..

/-! ### Decimal rounding bounds -/

theorem ndigitsAux_lt (fuel n : ℕ) (h : n ≤ fuel) : n < 10 ^ ndigitsAux fuel n := by
  induction fuel generalizing n with
  | zero =>
      have : n = 0 := Nat.le_zero.mp h
      subst this
      simp [ndigitsAux]
  | succ fuel ih =>
      by_cases hn : n = 0
      · subst hn; simp [ndigitsAux]
      · have hdivlt : n / 10 < n := Nat.div_lt_self (Nat.pos_of_ne_zero hn) (by norm_num)
        have hdiv : n / 10 ≤ fuel := by omega
        have hrec := ih (n / 10) hdiv
        simp only [ndigitsAux, if_neg hn]
        have h1 : n < 10 * (n / 10) + 10 := by
          have hmod := Nat.mod_lt n (show 0 < 10 by norm_num)
          have hdm := Nat.div_add_mod n 10
          omega
        have h2 : 10 * (n / 10) + 10 ≤ 10 * 10 ^ ndigitsAux fuel (n / 10) := by
          have : n / 10 + 1 ≤ 10 ^ ndigitsAux fuel (n / 10) := hrec
          omega
        calc n < 10 * (n / 10) + 10 := h1
          _ ≤ 10 * 10 ^ ndigitsAux fuel (n / 10) := h2
          _ = 10 ^ (ndigitsAux fuel (n / 10) + 1) := by
              rw [pow_succ, Nat.mul_comm]

theorem ndigitsAux_le (fuel n k : ℕ) (h : n ≤ fuel) (hk : n < 10 ^ k) :
    ndigitsAux fuel n ≤ k := by
  induction fuel generalizing n k with
  | zero =>
      have : n = 0 := Nat.le_zero.mp h
      subst this
      simp [ndigitsAux]
  | succ fuel ih =>
      by_cases hn : n = 0
      · subst hn; simp [ndigitsAux]
      · simp only [ndigitsAux, if_neg hn]
        rcases k with _ | k
        · simp only [pow_zero] at hk; omega
        · have hdivlt : n / 10 < n := Nat.div_lt_self (Nat.pos_of_ne_zero hn) (by norm_num)
          have hdiv : n / 10 ≤ fuel := by omega
          have h2 : n / 10 < 10 ^ k := by
            rw [Nat.div_lt_iff_lt_mul (by norm_num : (0:ℕ) < 10)]
            calc n < 10 ^ (k + 1) := hk
              _ = 10 ^ k * 10 := pow_succ 10 k
          have := ih (n / 10) k hdiv h2
          omega

theorem ndigits_lt (n : ℕ) : n < 10 ^ ndigits n := ndigitsAux_lt n n le_rfl

theorem ndigits_le_of_lt (n k : ℕ) (h : n < 10 ^ k) : ndigits n ≤ k :=
  ndigitsAux_le n n k le_rfl h

theorem rhe_le (m p : ℕ) : rhe m p ≤ m / p + 1 := by
  simp only [rhe]
  split_ifs <;> first | exact Nat.le_succ _ | exact le_rfl

theorem rhe_carry_digits (n : ℕ) (h1 : ¬ ndigits n ≤ prec) :
    ndigits (rhe n (10 ^ (ndigits n - prec)) / 10) ≤ prec := by
  have hq := rhe_le n (10 ^ (ndigits n - prec))
  have hnlt : n < 10 ^ (prec + (ndigits n - prec)) := by
    have h0 := ndigits_lt n
    have heq : prec + (ndigits n - prec) = ndigits n := by omega
    rw [heq]
    exact h0
  have hdivlt : n / 10 ^ (ndigits n - prec) < 10 ^ prec := by
    rw [Nat.div_lt_iff_lt_mul (pow_pos (by norm_num) _)]
    calc n < 10 ^ (prec + (ndigits n - prec)) := hnlt
      _ = 10 ^ prec * 10 ^ (ndigits n - prec) := pow_add 10 prec _
  have hcarry : rhe n (10 ^ (ndigits n - prec)) ≤ 10 ^ prec := by omega
  have h10 : rhe n (10 ^ (ndigits n - prec)) / 10 ≤ 10 ^ prec / 10 :=
    Nat.div_le_div_right hcarry
  have heq2 : (10 : ℕ) ^ prec / 10 = 10 ^ (prec - 1) := by
    show (10 : ℕ) ^ 50 / 10 = 10 ^ 49
    rw [show (50 : ℕ) = 49 + 1 from rfl, pow_succ, Nat.mul_div_cancel _ (by norm_num)]
  have hlt2 : (10 : ℕ) ^ (prec - 1) < 10 ^ prec :=
    Nat.pow_lt_pow_right (by norm_num) (by norm_num [prec])
  exact ndigits_le_of_lt _ _ (by omega)

/-- The rounded coefficient always fits in the context precision. -/
theorem decRound_digits (c e : ℤ) : ndigits (decRound c e).c.natAbs ≤ prec := by
  simp only [decRound]
  split_ifs with h1 h2 h3 h4
  · exact h1
  · simpa using h2
  · simpa using h2
  · simpa using rhe_carry_digits c.natAbs h1
  · simpa using rhe_carry_digits c.natAbs h1

theorem decRound_of_le (c e : ℤ) (h : ndigits c.natAbs ≤ prec) :
    decRound c e = ⟨c, e⟩ := by
  unfold decRound
  rw [if_pos h]

theorem decAdd_digits (a b : Dec) : ndigits (decAdd a b).c.natAbs ≤ prec :=
  decRound_digits _ _

theorem decSum_digits (l : List Dec) : ndigits (decSum l).c.natAbs ≤ prec := by
  suffices haux : ∀ init : Dec, ndigits init.c.natAbs ≤ prec →
      ndigits (l.foldl decAdd init).c.natAbs ≤ prec by
    refine haux ⟨0, 0⟩ ?_
    show ndigits 0 ≤ prec
    simp [ndigits, ndigitsAux, prec]
  induction l with
  | nil => exact fun init h => h
  | cons x xs ih =>
      intro init h
      simpa using ih (decAdd init x) (decAdd_digits init x)

/-- Division by `Decimal("1e18")` is exact on any in-context decimal. -/
theorem decDiv1e18_val (a : Dec) (h : ndigits a.c.natAbs ≤ prec) :
    Dec.val (decDiv1e18 a) * (10 : ℚ) ^ (18 : ℤ) = Dec.val a := by
  unfold decDiv1e18
  rw [decRound_of_le a.c (a.e - 18) h]
  show (a.c : ℚ) * (10 : ℚ) ^ (a.e - 18) * (10 : ℚ) ^ (18 : ℤ) = (a.c : ℚ) * (10 : ℚ) ^ a.e
  rw [mul_assoc, ← zpow_add₀ (by norm_num : (10 : ℚ) ≠ 0), sub_add_cancel]

/-- C4 (amended): in every emitted report, the converted cost total is
exactly the raw cost total divided by the scale factor 10^18 (decimal
equality, no rounding drift): the raw total is always an in-context
decimal, and dividing such a decimal by `1e18` is exact.  (The raw total
itself is the context-precision-50 correctly-rounded sum of the amounts,
exact only while every partial sum fits in 50 significant digits.) -/
theorem C4_cost_division_exact (s : St) (start : ℚ) :
    Dec.val (summarize s start).total_cost_glm * (10 : ℚ) ^ (18 : ℤ) =
      Dec.val (summarize s start).total_cost_gwei := by
  show Dec.val (decDiv1e18 (decSum s.debit_notes)) * (10 : ℚ) ^ (18 : ℤ) =
    Dec.val (decSum s.debit_notes)
  exact decDiv1e18_val _ (decSum_digits _)

/-! ### C1: run-level task counts -/

theorem analyze_results_ok_some (es : List RawEvent) (sum : Summary)
    (h : analyze_results es = .ok (some sum)) :
    ∃ s start, processEvents es = .ok s ∧ s.script_start_time = some start ∧
      sum = summarize s start := by
  unfold analyze_results at h
  rcases hp : processEvents es with err | s
  · rw [hp] at h; cases h
  · rw [hp] at h
    have h' : (match s.script_start_time with
        | none => (.ok none : Except PyErr (Option Summary))
        | some start => .ok (some (summarize s start))) = .ok (some sum) := h
    rcases hs : s.script_start_time with _ | start
    · rw [hs] at h'; cases h'
    · rw [hs] at h'
      have h1 := Except.ok.inj h'
      have h2 := Option.some.inj h1
      exact ⟨s, start, rfl, hs, h2.symm⟩

/-- C1 (amended): for every stream processed to completion whose analysis
produces a report, `successful_tasks + failed_tasks` equals the number of
distinct task ids that received a `TaskStarted` event — not the number
that received a terminal event: a task started but never terminated is
counted as successful. -/
theorem C1_task_counts (es : List RawEvent) (sum : Summary)
    (h : analyze_results es = .ok (some sum)) :
    sum.successful_tasks + sum.failed_tasks = ((startedIds es).dedup).length := by
  obtain ⟨s, start, hp, hs, hsum⟩ := analyze_results_ok_some es sum h
  subst hsum
  have hsucc : (summarize s start).successful_tasks =
      (vals s.tasks).countP (fun t => ! t.isFailed) := rfl
  have hfail : (summarize s start).failed_tasks =
      s.tasks.length - (vals s.tasks).countP (fun t => ! t.isFailed) := rfl
  rw [hsucc, hfail]
  have hle : (vals s.tasks).countP (fun t => ! t.isFailed) ≤ s.tasks.length := by
    calc (vals s.tasks).countP (fun t => ! t.isFailed) ≤ (vals s.tasks).length :=
          List.countP_le_length _
      _ = s.tasks.length := by simp [vals]
  rw [Nat.add_sub_cancel' hle]
  obtain ⟨hmem, hnd⟩ := processFrom_tasks_keys es St0 s hp
  have hnd' : (keys s.tasks).Nodup := hnd (by simp [St0, keys])
  have hmem' : ∀ k, k ∈ keys s.tasks ↔ k ∈ startedIds es := by
    intro k
    rw [hmem k]
    simp [St0, keys]
  have h1 : s.tasks.length = (keys s.tasks).length := by simp [keys]
  rw [h1]
  have h2 : (keys s.tasks).toFinset = ((startedIds es).dedup).toFinset := by
    ext k
    simp only [List.mem_toFinset, List.mem_dedup]
    exact hmem' k
  calc (keys s.tasks).length = (keys s.tasks).toFinset.card :=
        (List.toFinset_card_of_nodup hnd').symm
    _ = ((startedIds es).dedup).toFinset.card := by rw [h2]
    _ = ((startedIds es).dedup).length := List.toFinset_card_of_nodup (List.nodup_dedup _)

/-! ### C8: descriptive statistics -/

/-- C8 (amended): `get_stats_dict` never errors; an empty series yields the
all-null record with count 0; a nonempty series yields count, mean
(`mean · n = Σx`), min, 25th/50th/75th percentiles and max, and the
*sample* standard deviation (`ddof = 1`, so `var · (n−1) = Σ(x−mean)²`),
which is `NaN` (absent) for a single-element series — not the population
standard deviation the claim states. -/
theorem C8_stats (data : List ℚ) :
    (data = [] → get_stats_dict data =
      { count := 0, mean := none, std_sq := none, min := none,
        q25 := none, q50 := none, q75 := none, max := none }) ∧
    (data ≠ [] →
      (get_stats_dict data).count = data.length ∧
      (∃ m, (get_stats_dict data).mean = some m ∧ m * (data.length : ℚ) = sumQ data) ∧
      (2 ≤ data.length → ∃ v, (get_stats_dict data).std_sq = some v ∧
        v * ((data.length : ℚ) - 1) =
          sumQ (data.map fun x => (x - sumQ data / (data.length : ℚ)) ^ 2)) ∧
      (data.length = 1 → (get_stats_dict data).std_sq = none) ∧
      (get_stats_dict data).min.isSome ∧ (get_stats_dict data).q25.isSome ∧
      (get_stats_dict data).q50.isSome ∧ (get_stats_dict data).q75.isSome ∧
      (get_stats_dict data).max.isSome) := by
  constructor
  · rintro rfl; rfl
  · intro hne
    rcases data with _ | ⟨x, xs⟩
    · exact absurd rfl hne
    · have hlen : (((x :: xs).length : ℕ) : ℚ) ≠ 0 := by
        exact Nat.cast_ne_zero.mpr (Nat.succ_ne_zero _)
      refine ⟨rfl, ⟨_, rfl, div_mul_cancel₀ _ hlen⟩, ?_, ?_, rfl, rfl, rfl, rfl, rfl⟩
      · intro h2
        have hv : (get_stats_dict (x :: xs)).std_sq =
            some (sumQ ((x :: xs).map fun y =>
                (y - sumQ (x :: xs) / (((x :: xs).length : ℕ) : ℚ)) ^ 2) /
              ((((x :: xs).length : ℕ) : ℚ) - 1)) := by
          show (if 2 ≤ (x :: xs).length then some _ else none) = some _
          rw [if_pos h2]
        have hge : (2 : ℚ) ≤ (((x :: xs).length : ℕ) : ℚ) := by exact_mod_cast h2
        have hne1 : (((x :: xs).length : ℕ) : ℚ) - 1 ≠ 0 :=
          ne_of_gt (by linarith : (0 : ℚ) < (((x :: xs).length : ℕ) : ℚ) - 1)
        exact ⟨_, hv, div_mul_cancel₀ _ hne1⟩
      · intro h1
        show (if 2 ≤ (x :: xs).length then some _ else none) = none
        rw [if_neg (by omega)]

/-- C2 counterexample: a record with a missing timestamp is not dropped —
the whole analysis aborts with the exception, and the following
(well-formed) `script_start` record is never processed. -/
theorem C2_counterexample :
    analyze_results [evBadTs, evStart] = .error .typeError := by decide

/-- C1 counterexample: a stream whose single task is started but never
receives a terminal event reports `successful=1, failed=0`, although zero
distinct task ids received a terminal event. -/
theorem C1_counterexample :
    (analyze_results [evStart, evTaskStarted]).map (Option.map fun su =>
      (su.successful_tasks, su.failed_tasks)) = .ok (some (1, 0)) ∧
    specTerminalIds [evStart, evTaskStarted] = [] ∧ (1 : ℕ) + 0 ≠ 0 := by decide

theorem C1_task_counts_witness :
    analyze_results C1es = .ok (some C1sum) ∧
    C1sum.successful_tasks + C1sum.failed_tasks = ((startedIds C1es).dedup).length := by
  have h : analyze_results C1es = .ok (some C1sum) := rfl
  exact ⟨h, C1_task_counts C1es C1sum h⟩

theorem C2_parse_errors_abort_witness :
    ∃ err, processEvents ([] ++ evBadTs :: [evStart]) = .error err ∧
      analyze_results ([] ++ evBadTs :: [evStart]) = .error err :=
  C2_parse_errors_abort [] [evStart] evBadTs St0 rfl (Or.inl rfl)

theorem C3_missing_run_start_witness :
    (analyze_results C3es = .ok none ↔ ∀ e ∈ C3es, e.event ≠ some "script_start") ∧
    ((∃ e ∈ C3es, e.event = some "script_start") →
      ∃ sum, analyze_results C3es = .ok (some sum)) :=
  C3_missing_run_start C3es C3st (by decide)

/-- C5 counterexample: the recorded first-proposal time is the first event
in stream order (timestamp 5), not the minimum of all proposal timestamps
(a proposal with timestamp 1 also occurs, and 5 ≰ 1). -/
theorem C5_counterexample :
    (processEvents C5es).map (fun st => getv st.proposals (some "P")) = .ok (some 5) ∧
    (1 : ℚ) ∈ proposalTimes C5es (some "P") ∧ ¬ (5 : ℚ) ≤ 1 := by decide

theorem C5_first_proposal_witness :
    getv C5st.proposals (some "P") = firstProposalTs C5es (some "P") ∧
    getv C5st.proposals (some "P") = some 5 :=
  ⟨C5_first_proposal C5es C5st (some "P") (by decide), by decide⟩

/-- C6 counterexample: after `TaskStarted` at 2 and `TaskRejected` at 3 the
task record has both `started_at` and `finished_at` but no `duration`
field, contradicting the claim that the duration is then present. -/
theorem C6_counterexample :
    (processEvents [evStart, evTaskStarted, evTaskRejected]).map
      (fun st => (getv st.tasks (some "T")).map fun t =>
        (t.started_at, t.finished_at, t.duration)) =
      .ok (some (2, some 3, none)) := by decide

theorem C6_accept_sets_duration_witness :
    getv C6st'.tasks (some "T") =
      some { started_at := 2, agr_id := some "A", finished_at := some 5,
             duration := some (5 - 2), result := some none } ∧
    ((2 : ℚ) ≤ 5 → 0 ≤ (5 : ℚ) - 2) := by
  have h := C6_accept_sets_duration C6st evTaskAccepted 5 C6st'
    ⟨2, some "A", none, none, none⟩ rfl rfl rfl rfl
  exact h

theorem C7_unknown_refs_dropped_witness :
    step C7st evTaskRejected = .ok C7st ∧
    (analyze_results [evStart, evTaskRejected]).map
      (Option.map fun su => (su.successful_tasks, su.failed_tasks)) = .ok (some (0, 0)) := by
  have h := C7_unknown_refs_dropped C7st evTaskRejected 3 rfl
    (Or.inr (Or.inr (Or.inl rfl)))
    (fun hw => absurd hw (by decide))
    (fun _ => by decide)
  exact ⟨h.1, by decide⟩

/-- C9 counterexample: a present-but-blank reason string is counted under
the blank key; the "Unknown" bucket stays empty, contradicting the claimed
default for blank reasons. -/
theorem C9_counterexample :
    (processEvents [evTermBlank]).map
      (fun st => (getv st.terminations "Unknown", getv st.terminations "")) =
      .ok (none, some 1) := by decide

theorem C9_termination_histogram_witness :
    (getv C9st'.terminations "Unknown").getD 0 = 1 := by
  have h := C9_termination_histogram St0 evTermAbsent 4 C9st' rfl rfl (by decide) "Unknown"
  rw [h]
  decide

theorem C10_accept_increments_witness :
    getv C10st'.provider_stats (some "P") =
      some { name := some "N", tasks_run := 1, tasks_successful := 1, tasks_failed := 0 } ∧
    (analyze_results C10es).map (Option.map fun su =>
      (su.successful_tasks, su.failed_tasks)) = .ok (some (0, 1)) := by
  have h := C10_accept_increments C10st evTaskAcceptedFailed 3 C10st'
    ⟨2, some "A", none, none, none⟩
    ⟨some "P", 1, none, some "N", none⟩
    ⟨some "N", 1, 0, 0⟩
    rfl rfl rfl rfl rfl rfl
  exact ⟨h.1, by decide⟩

/-- C4 counterexample: with context precision 50, summing the amounts
`1e50` and `1` rounds: the reported raw total is `1.0…0E+50`
(value 10^50), not the exact decimal sum 10^50 + 1. -/
theorem C4_counterexample :
    (analyze_results [evStart, evDebitBig, evDebitOne]).map
      (Option.map fun su => su.total_cost_gwei) = .ok (some ⟨10 ^ 49, 1⟩) ∧
    Dec.val ⟨10 ^ 49, 1⟩ = 10 ^ 50 ∧
    Dec.val ⟨1, 50⟩ + Dec.val ⟨1, 0⟩ = 10 ^ 50 + 1 ∧
    ((10 : ℚ) ^ 50) ≠ 10 ^ 50 + 1 := by
  refine ⟨rfl, ?_, ?_, by norm_num⟩
  · show ((10 ^ 49 : ℤ) : ℚ) * (10 : ℚ) ^ (1 : ℤ) = 10 ^ 50
    rw [zpow_one]
    push_cast
    norm_num
  · show ((1 : ℤ) : ℚ) * (10 : ℚ) ^ (50 : ℤ) + ((1 : ℤ) : ℚ) * (10 : ℚ) ^ (0 : ℤ) =
      10 ^ 50 + 1
    norm_num

theorem C8_stats_witness :
    get_stats_dict ([] : List ℚ) =
      { count := 0, mean := none, std_sq := none, min := none,
        q25 := none, q50 := none, q75 := none, max := none } ∧
    (get_stats_dict [1, 2]).count = 2 :=
  ⟨(C8_stats []).1 rfl, ((C8_stats [1, 2]).2 (by decide)).1⟩

/-- C8 counterexample: `describe` reports the sample standard deviation
(`ddof = 1`): for the series `[0, 2]` the squared reported std is 2 while
the population variance is 1, so the reported std (√2) is not the
population standard deviation (1). -/
theorem C8_counterexample :
    (get_stats_dict [0, 2]).std_sq = some 2 ∧ specPopVariance [0, 2] = 1 ∧
    (2 : ℚ) ≠ 1 := by
  refine ⟨?_, ?_, by norm_num⟩
  · show (if 2 ≤ ([0, 2] : List ℚ).length then
        some (sumQ (([0, 2] : List ℚ).map fun x =>
          (x - sumQ [0, 2] / (([0, 2] : List ℚ).length : ℚ)) ^ 2) /
          ((([0, 2] : List ℚ).length : ℚ) - 1)) else none) = some 2
    rw [if_pos (by norm_num)]
    congr 1
    simp [sumQ]
    norm_num
  · simp [specPopVariance, sumQ]
    norm_num

end LoadtestAnalyzer

